import Mathlib

/-!
Verification of the draft turn-order and state-resolution engine of the
ylolympicdraft backend.

The embedding models the league-scoped relational state touched by
`backend/api/routes/draft.py` and `backend/api/routes/leagues.py`:
one value of type `DB` holds the rows of a single league (the SQL in the
source is always filtered by `league_id`, so the `league_id` column itself
is dropped from the row types).  User and event ids are `Nat`, timestamps
(`picked_at`) are `Nat`, SQL `text` columns are `String`, and nullable
columns are `Option`.  Randomness (`order by random()`) is modelled by
passing the shuffled list as an explicit argument together with a
permutation hypothesis where a theorem needs it.
-/

deriving instance DecidableEq for Except

namespace YLDraft

/-- A row of `league_members` joined with `users`, as selected by
`_get_members_in_draft_order` (`draft.py`). `draft_position` is nullable. -/
structure Member where
  id : Nat
  username : String
  draft_position : Option Nat
deriving DecidableEq, Repr

/-- A row of the `events` catalog (`models.py`). -/
structure Event where
  id : Nat
  sport : String
  name : String
  event_key : String
  is_team_event : Bool
  sort_order : Nat
deriving DecidableEq, Repr

/-- A row of `event_entries` (`models.py`), `league`-independent catalog data. -/
structure EventEntry where
  event_id : Nat
  entry_key : String
  entry_name : String
  is_team : Bool
deriving DecidableEq, Repr

/-- A row of `league_events` (the per-league plan), joined with its `events`
row as `_get_events_in_order` does.  `mode` is the string column
('draft' or 'auto'); `sort_order` is `le.sort_order`. -/
structure LeagueEvent where
  event : Event
  mode : String
  sort_order : Nat
deriving DecidableEq, Repr

/-- A row of `draft_picks` for this league (`models.py`). -/
structure Pick where
  event_id : Nat
  user_id : Nat
  entry_key : String
  entry_name : String
  picked_at : Nat
deriving DecidableEq, Repr

/-- The state of one league: its `leagues` row fields used by the draft
code (`status`, `draft_rounds`), the global `events` and `event_entries`
catalogs, and the league-scoped `league_members`, `league_events` and
`draft_picks` rows. -/
structure DB where
  leagueStatus : String
  draftRounds : Nat
  catalogEvents : List Event
  members : List Member
  leagueEvents : List LeagueEvent
  eventEntries : List EventEntry
  picks : List Pick
deriving DecidableEq, Repr

/-! ### Sorting (SQL `order by`) -/

/-- Insert into a list sorted by `le`, keeping existing relative order of
equal keys (stable, like SQL order by with a total key). -/
def insertSorted (le : α → α → Bool) (x : α) : List α → List α
  | [] => [x]
  | y :: ys => if le x y then x :: y :: ys else y :: insertSorted le x ys

/-- Insertion sort by a boolean comparison. -/
def insertionSort (le : α → α → Bool) : List α → List α
  | [] => []
  | x :: xs => insertSorted le x (insertionSort le xs)

/-- SQL key `order by m.draft_position asc nulls last, u.id asc`. -/
def memberLE (a b : Member) : Bool :=
  match a.draft_position, b.draft_position with
  | some p, some q => decide (p < q) || (decide (p = q) && decide (a.id ≤ b.id))
  | some _, none => true
  | none, some _ => false
  | none, none => decide (a.id ≤ b.id)

/-- SQL key `order by le.sort_order asc`. -/
def leagueEventLE (a b : LeagueEvent) : Bool :=
  decide (a.sort_order ≤ b.sort_order)

/-- SQL key `order by p.picked_at asc`. -/
def pickLE (a b : Pick) : Bool :=
  decide (a.picked_at ≤ b.picked_at)

/-! ### Errors

Each constructor stands for one of the `HTTPException`s raised by
`draft.py` / `leagues.py`; the spec names them `NotAMember`, `NotYourTurn`,
`DraftNotActive`, `DraftComplete`, `DraftNotStarted`, `InvalidEntry`,
`AlreadyPicked`, `EntryAlreadyTaken`, `InsufficientCapacity`,
`InvalidState`. -/

/-- Errors raised while resolving draft state (`_get_members_in_draft_order`
and `_get_events_in_order`). -/
inductive DraftError where
  /-- HTTP 400 "League has no members". -/
  | noMembers : DraftError
  /-- HTTP 409 "Draft order not set. Commissioner must start the draft."
  (the spec's `DraftNotStarted`). -/
  | draftNotSet : DraftError
  /-- HTTP 409 "Draft events not set. Commissioner must start the draft.". -/
  | draftEventsNotSet : DraftError
deriving DecidableEq, Repr

/-- Errors raised by `make_pick`. -/
inductive PickError where
  /-- HTTP 400 "entry_key cannot be blank". -/
  | blankEntryKey : PickError
  /-- HTTP 400 "entry_name cannot be blank". -/
  | blankEntryName : PickError
  /-- HTTP 403 "Not a member of this league" (the spec's `NotAMember`). -/
  | notAMember : PickError
  /-- HTTP 409 "Draft not active" (the spec's `DraftNotActive`). -/
  | draftNotActive : PickError
  /-- A `DraftError` propagated out of `_current_state`. -/
  | resolver (e : DraftError) : PickError
  /-- HTTP 409 "Draft is complete" (the spec's `DraftComplete`). -/
  | draftComplete : PickError
  /-- HTTP 409 "Not your turn" (the spec's `NotYourTurn`). -/
  | notYourTurn : PickError
  /-- Python would crash indexing a `None` on-the-clock value; shown
  unreachable by the bounds theorem for the resolver. -/
  | internalFault : PickError
  /-- HTTP 400 "Invalid entry for this event" (the spec's `InvalidEntry`). -/
  | invalidEntry : PickError
  /-- HTTP 409 "You already picked for this event" (constraint
  `uq_pick_user_per_event`; the spec's `AlreadyPicked`). -/
  | alreadyPicked : PickError
  /-- HTTP 409 "That entry was already drafted for this event" (constraint
  `uq_pick_no_dupe_entry`; the spec's `EntryAlreadyTaken`). -/
  | entryAlreadyTaken : PickError
deriving DecidableEq, Repr

/-! ### Draft turn resolver (`draft.py`) -/

/-- The value `_current_state` returns: either the `complete = True` dict or
the in-progress dict with the current event, its index, the direction
string, the on-the-clock user (an `Option` because the source indexes
`order[len(picks)]`, which could in principle be out of range) and the
picks already made for the event. -/
inductive DraftState where
  | inProgress (event : LeagueEvent) (eventIndex : Nat) (direction : String)
      (onTheClock : Option Member) (eventPicks : List Pick) : DraftState
  | complete : DraftState
deriving DecidableEq, Repr

/-- Embedding of `_get_members_in_draft_order`: select members ordered by
`draft_position asc nulls last, u.id asc`; 400 if the league has no
members; 409 (`DraftNotStarted`) if the first member of that ordering has
a null position. -/
def getMembersInDraftOrder (db : DB) : Except DraftError (List Member) :=
  match insertionSort memberLE db.members with
  | [] => Except.error DraftError.noMembers
  | m :: rest =>
    match m.draft_position with
    | none => Except.error DraftError.draftNotSet
    | some _ => Except.ok (m :: rest)

/-- The `count(*)` of `event_entries` rows for one event
(the `entry_counts` CTE of `draft.py` / `leagues.py`). -/
def entryCount (db : DB) (eid : Nat) : Nat :=
  (db.eventEntries.filter (fun en => en.event_id == eid)).length

/-- Embedding of `_get_events_in_order`: first 409 if the league has no `mode='draft'`
plan rows at all; otherwise the draft-mode plan rows whose current entry
count is at least `memberCount` (`coalesce(ec.c, 0) >= :member_count`),
ordered by `le.sort_order asc`. -/
def getEventsInOrder (db : DB) (memberCount : Nat) :
    Except DraftError (List LeagueEvent) :=
  if (db.leagueEvents.filter (fun le => le.mode == "draft")).length = 0 then
    Except.error DraftError.draftEventsNotSet
  else
    Except.ok (insertionSort leagueEventLE
      (db.leagueEvents.filter
        (fun le => le.mode == "draft" && decide (memberCount ≤ entryCount db le.event.id))))

/-- Embedding of `_get_picks_for_event`: the league's picks for one event, ordered by
`picked_at asc`. -/
def picksForEvent (db : DB) (eid : Nat) : List Pick :=
  insertionSort pickLE (db.picks.filter (fun p => p.event_id == eid))

/-- The `for idx, ev in enumerate(events)` loop of `_current_state`:
at the first event whose pick count is below the member count, report
`InProgress` with direction forward on even index and the member at
position `len(picks)` of the direction-adjusted order on the clock;
after exhausting all events report complete. -/
def currentStateLoop (members : List Member) (picksFor : Nat → List Pick) :
    Nat → List LeagueEvent → DraftState
  | _, [] => DraftState.complete
  | idx, ev :: rest =>
    if (picksFor ev.event.id).length < members.length then
      DraftState.inProgress ev idx
        (if idx % 2 = 0 then ("forward") else ("reverse"))
        ((if idx % 2 = 0 then members else members.reverse).get?
          (picksFor ev.event.id).length)
        (picksFor ev.event.id)
    else
      currentStateLoop members picksFor (idx + 1) rest

/-- Embedding of `_current_state`: fetch the ordered roster, the ordered draft events,
then walk the snake-draft loop. -/
def currentState (db : DB) : Except DraftError DraftState :=
  match getMembersInDraftOrder db with
  | Except.error e => Except.error e
  | Except.ok members =>
    match getEventsInOrder db members.length with
    | Except.error e => Except.error e
    | Except.ok events =>
      Except.ok (currentStateLoop members (picksForEvent db) 0 events)

/-! ### Pick acceptance gate (`make_pick` in `draft.py`) -/

/-- The request body `MakePickIn` (minus `league_id`, implicit in `DB`). -/
structure MakePickIn where
  entry_key : String
  entry_name : String
deriving DecidableEq, Repr

/-- ASCII whitespace, for the embedding of Python's `str.strip()`. -/
def isSpaceChar (c : Char) : Bool :=
  c = ' ' || c = '\t' || c = '\n' || c = '\r'

/-- Python's `str.strip()`: drop whitespace from both ends. -/
def stripString (s : String) : String :=
  String.mk (((s.data.dropWhile isSpaceChar).reverse.dropWhile isSpaceChar).reverse)

/-- The observable outcome of one `make_pick` request: the HTTP-level
result and the database state after the transaction committed or rolled
back. -/
structure PickOutcome where
  res : Except PickError Pick
  db : DB
deriving DecidableEq, Repr

/-- The `server_default=func.now()` column default for `picked_at`: a timestamp strictly above
every committed one. -/
def nextPickedAt (db : DB) : Nat :=
  (db.picks.map Pick.picked_at).foldr Nat.max 0 + 1

/-- Embedding of `make_pick`: strip and reject blank inputs, `_require_member`,
`_require_drafting`, resolve `_current_state`, reject when complete or when
the caller is not on the clock, look the entry up in `event_entries` for
the current event, replace the client-sent name by the catalog one, then
insert the pick — the uniqueness constraints `uq_pick_user_per_event` and
`uq_pick_no_dupe_entry` firing at commit time are modelled by the
equivalent pre-insert membership tests, and a rolled-back transaction
leaves `db` unchanged. -/
def makePick (db : DB) (userId : Nat) (body : MakePickIn) : PickOutcome :=
  if stripString body.entry_key = "" then
    PickOutcome.mk (Except.error PickError.blankEntryKey) db
  else if stripString body.entry_name = "" then
    PickOutcome.mk (Except.error PickError.blankEntryName) db
  else if db.members.any (fun m => m.id == userId) = false then
    PickOutcome.mk (Except.error PickError.notAMember) db
  else if db.leagueStatus ≠ "drafting" then
    PickOutcome.mk (Except.error PickError.draftNotActive) db
  else
    match currentState db with
    | Except.error e => PickOutcome.mk (Except.error (PickError.resolver e)) db
    | Except.ok DraftState.complete =>
      PickOutcome.mk (Except.error PickError.draftComplete) db
    | Except.ok (DraftState.inProgress ev _ _ otc _) =>
      match otc with
      | none => PickOutcome.mk (Except.error PickError.internalFault) db
      | some m =>
        if m.id ≠ userId then
          PickOutcome.mk (Except.error PickError.notYourTurn) db
        else
          match db.eventEntries.find?
              (fun en => en.event_id == ev.event.id &&
                en.entry_key == stripString body.entry_key) with
          | none => PickOutcome.mk (Except.error PickError.invalidEntry) db
          | some en =>
            if db.picks.any
                (fun p => p.event_id == ev.event.id && p.user_id == userId) then
              PickOutcome.mk (Except.error PickError.alreadyPicked) db
            else if db.picks.any
                (fun p => p.event_id == ev.event.id &&
                  p.entry_key == stripString body.entry_key) then
              PickOutcome.mk (Except.error PickError.entryAlreadyTaken) db
            else
              PickOutcome.mk
                (Except.ok
                  (Pick.mk ev.event.id userId (stripString body.entry_key)
                    en.entry_name (nextPickedAt db)))
                (DB.mk db.leagueStatus db.draftRounds db.catalogEvents
                  db.members db.leagueEvents db.eventEntries
                  (db.picks ++
                    [Pick.mk ev.event.id userId (stripString body.entry_key)
                      en.entry_name (nextPickedAt db)]))

/-! ### Starting the draft (`start_draft` in `leagues.py`) -/

/-- Errors raised by `start_draft` (the commissioner/404 checks concern the
identity collaborator and the league lookup, outside this model). -/
inductive StartError where
  /-- HTTP 409 "League not in lobby". -/
  | notInLobby : StartError
  /-- HTTP 400 "No events seeded". -/
  | noEventsSeeded : StartError
  /-- HTTP 400 "League has no members" (the spec's `InvalidState`). -/
  | noMembers : StartError
  /-- HTTP 400 "Invalid draft_rounds". -/
  | invalidDraftRounds : StartError
  /-- HTTP 400 "Not enough events with entries for N draft rounds"
  (the spec's `InsufficientCapacity`). -/
  | insufficientCapacity : StartError
  /-- HTTP 409 "League events already generated". -/
  | alreadyGenerated : StartError
deriving DecidableEq, Repr

/-- The outcome of one `start_draft` request: the HTTP-level result and the
database state after the transaction. -/
structure StartOutcome where
  res : Except StartError Unit
  db : DB
deriving DecidableEq, Repr

/-- The `draftable_events` CTE of `start_draft`: catalog events whose entry
count STRICTLY exceeds the league's member count
(`coalesce(ec.c, 0) > :member_count`). -/
def draftableEvents (db : DB) : List Event :=
  db.catalogEvents.filter (fun e => decide (db.members.length < entryCount db e.id))

/-- The `update ... set draft_position = s.pos` step: the i-th member of
the shuffled roster receives position `i` (positions `p, p+1, ...`;
called with `p = 1`). -/
def assignPositions : Nat → List Member → List Member
  | _, [] => []
  | p, m :: ms => Member.mk m.id m.username (some p) :: assignPositions (p + 1) ms

/-- Embedding of `start_draft`, with its two `order by random()` shuffles passed in as
arguments: `shuffledDraftable` is the randomly ordered `draftable_events`
list (its `draft_rounds`-prefix becomes the `draft_events` sample) and
`shuffledMembers` the randomly ordered roster (row numbers become draft
positions).  `autoPicks` stands for the rows the two auto-assignment
inserts add to `draft_picks` for auto-mode events (their random content is
irrelevant to the claims below).  Checks mirror the source order: lobby
status, seeded events, non-empty roster, `draft_rounds` bounds against the
eligible-event count, then the one-time-generation guard; on success the
plan marks exactly the sampled events `draft` and every other catalog
event `auto`, keeps `e.sort_order`, assigns positions `1..N`, and sets the
league status to `drafting`. -/
def startDraft (db : DB) (shuffledDraftable : List Event)
    (shuffledMembers : List Member) (autoPicks : List Pick) : StartOutcome :=
  if db.leagueStatus ≠ "lobby" then
    StartOutcome.mk (Except.error StartError.notInLobby) db
  else if db.catalogEvents.length = 0 then
    StartOutcome.mk (Except.error StartError.noEventsSeeded) db
  else if db.members.length = 0 then
    StartOutcome.mk (Except.error StartError.noMembers) db
  else if db.draftRounds < 1 then
    StartOutcome.mk (Except.error StartError.invalidDraftRounds) db
  else if (draftableEvents db).length < db.draftRounds then
    StartOutcome.mk (Except.error StartError.insufficientCapacity) db
  else if db.leagueEvents ≠ [] then
    StartOutcome.mk (Except.error StartError.alreadyGenerated) db
  else
    StartOutcome.mk (Except.ok ())
      (DB.mk ("drafting") db.draftRounds db.catalogEvents
        (assignPositions 1 shuffledMembers)
        (db.catalogEvents.map (fun e =>
          LeagueEvent.mk e
            (if e.id ∈ (shuffledDraftable.take db.draftRounds).map Event.id
              then ("draft") else ("auto"))
            e.sort_order))
        db.eventEntries
        (db.picks ++ autoPicks))

/-! ### Concrete sample data for witnesses and counterexamples -/

/-- An individual event with three entries in the catalog below. -/
def evA : Event := Event.mk 10 "Swimming" "100m Freestyle" "swim100" false 1

/-- A team event with three entries in the catalog below. -/
def evB : Event := Event.mk 20 "Athletics" "4x100m Relay" "relay4" true 2

/-- Draft-mode plan row for `evA`. -/
def leA : LeagueEvent := LeagueEvent.mk evA ("draft") 1

/-- Draft-mode plan row for `evB`. -/
def leB : LeagueEvent := LeagueEvent.mk evB ("draft") 2

/-- Member at draft position 1. -/
def mAlice : Member := Member.mk 1 "alice" (some 1)

/-- Member at draft position 2. -/
def mBob : Member := Member.mk 2 "bob" (some 2)

/-- Member with an unassigned draft position. -/
def mNoPos : Member := Member.mk 3 "carol" none

/-- A TEAM entry filed under the INDIVIDUAL event `evA` (catalog-invariant
violation used to probe the entry validation). -/
def enA1 : EventEntry := EventEntry.mk 10 "USA" "United States" true

/-- Individual entry of `evA`. -/
def enA2 : EventEntry := EventEntry.mk 10 "AUS" "Australia" false

/-- Individual entry of `evA`. -/
def enA3 : EventEntry := EventEntry.mk 10 "GBR" "Great Britain" false

/-- Team entry of `evB`. -/
def enB1 : EventEntry := EventEntry.mk 20 "CAN" "Canada" true

/-- Team entry of `evB`. -/
def enB2 : EventEntry := EventEntry.mk 20 "FRA" "France" true

/-- Team entry of `evB`. -/
def enB3 : EventEntry := EventEntry.mk 20 "GER" "Germany" true

/-- The full sample entry catalog. -/
def sampleEntries : List EventEntry := [enA1, enA2, enA3, enB1, enB2, enB3]

/-- Two-member roster in draft order. -/
def sampleMembers : List Member := [mAlice, mBob]

/-- Two-round draft plan. -/
def sampleEvents : List LeagueEvent := [leA, leB]

/-- Alice's committed pick for `evA`. -/
def pkA1 : Pick := Pick.mk 10 1 "USA" "United States" 1

/-- Bob's committed pick for `evA`. -/
def pkA2 : Pick := Pick.mk 10 2 "AUS" "Australia" 2

/-- Pick table with no picks at all. -/
def samplePicksNone : Nat → List Pick := fun _ => []

/-- Pick table with one pick for `evA` and none for `evB`. -/
def samplePicksOneA : Nat → List Pick := fun eid => if eid = 10 then [pkA1] else []

/-- Pick table with `evA` fully picked and `evB` untouched. -/
def samplePicksFullA : Nat → List Pick :=
  fun eid => if eid = 10 then [pkA1, pkA2] else []

/-- A drafting league with the full plan and catalog, no picks yet. -/
def dbBasic : DB :=
  DB.mk ("drafting") 2 [evA, evB] sampleMembers sampleEvents sampleEntries []

/-- A drafting league whose single draft-mode event has no entries. -/
def dbNoEntries : DB := DB.mk ("drafting") 1 [evA] [mAlice] [leA] [] []

/-- A drafting league where one of two members lacks a draft position. -/
def dbPartialNull : DB :=
  DB.mk ("drafting") 1 [evA] [mAlice, mNoPos] [leA] [enA1, enA2, enA3] []

/-- A drafting league where no member has a draft position. -/
def dbAllNull : DB :=
  DB.mk ("drafting") 1 [evA]
    [Member.mk 1 "alice" none, Member.mk 2 "bob" none]
    [leA] [enA1, enA2, enA3] []

/-- A lobby league ready to start: two members without positions, two
catalog events each with three entries, one draft round. -/
def dbLobby : DB :=
  DB.mk ("lobby") 1 [evA, evB]
    [Member.mk 1 "alice" none, Member.mk 2 "bob" none]
    [] sampleEntries []

/-- A lobby league asking for more draft rounds than there are eligible
events. -/
def dbLobbyShort : DB :=
  DB.mk ("lobby") 5 [evA, evB]
    [Member.mk 1 "alice" none, Member.mk 2 "bob" none]
    [] sampleEntries []

/-- The valid-looking pick request used by several scenarios. -/
def bodyUSA : MakePickIn := MakePickIn.mk ("USA") "United States"

/-- A pick request whose key matches no catalog entry. -/
def bodyNope : MakePickIn := MakePickIn.mk ("NOPE") "Nobody"

/-! ### Helper lemmas about the sort and the resolver loop -/

theorem insertSorted_perm (le : α → α → Bool) (x : α) :
    ∀ l : List α, (insertSorted le x l).Perm (x :: l)
  | [] => List.Perm.refl _
  | y :: ys => by
    unfold insertSorted
    split
    · exact List.Perm.refl _
    · exact ((insertSorted_perm le x ys).cons y).trans (List.Perm.swap x y ys)

theorem insertionSort_perm (le : α → α → Bool) :
    ∀ l : List α, (insertionSort le l).Perm l
  | [] => List.Perm.refl _
  | x :: xs =>
    (insertSorted_perm le x (insertionSort le xs)).trans
      ((insertionSort_perm le xs).cons x)

theorem mem_insertionSort (le : α → α → Bool) (l : List α) (a : α) :
    a ∈ insertionSort le l ↔ a ∈ l :=
  (insertionSort_perm le l).mem_iff

theorem length_insertionSort (le : α → α → Bool) (l : List α) :
    (insertionSort le l).length = l.length :=
  (insertionSort_perm le l).length_eq

/-- The direction-adjusted turn order has exactly as many members as the
roster. -/
theorem length_adjustedOrder (members : List Member) (i : Nat) :
    (if i % 2 = 0 then members else members.reverse).length = members.length := by
  split <;> simp

/-- The resolver loop reports complete exactly when every walked event
already has at least one pick per member. -/
theorem currentStateLoop_complete_iff (members : List Member)
    (picksFor : Nat → List Pick) :
    ∀ (events : List LeagueEvent) (idx : Nat),
      currentStateLoop members picksFor idx events = DraftState.complete ↔
        ∀ ev ∈ events, members.length ≤ (picksFor ev.event.id).length := by
  intro events
  induction events with
  | nil => intro idx; simp [currentStateLoop]
  | cons ev rest ih =>
    intro idx
    by_cases h : (picksFor ev.event.id).length < members.length
    · simp only [currentStateLoop, if_pos h]
      constructor
      · intro hc; exact absurd hc (by simp)
      · intro hall
        exact absurd (hall ev (List.mem_cons_self ev rest)) (Nat.not_le.mpr h)
    · simp only [currentStateLoop, if_neg h]
      rw [ih (idx + 1)]
      constructor
      · intro hall e he
        rcases List.mem_cons.mp he with rfl | he'
        · exact Nat.le_of_not_lt h
        · exact hall e he'
      · intro hall e he; exact hall e (List.mem_cons_of_mem ev he)

/-- The resolver loop stops at the first event whose pick count is below
the member count and reports the direction and on-the-clock slot for it. -/
theorem currentStateLoop_first (members : List Member)
    (picksFor : Nat → List Pick) :
    ∀ (events : List LeagueEvent) (idx i : Nat) (hi : i < events.length),
      (∀ j (hj : j < i),
        members.length ≤
          (picksFor (events.get ⟨j, Nat.lt_trans hj hi⟩).event.id).length) →
      (picksFor (events.get ⟨i, hi⟩).event.id).length < members.length →
      currentStateLoop members picksFor idx events =
        DraftState.inProgress (events.get ⟨i, hi⟩) (idx + i)
          (if (idx + i) % 2 = 0 then ("forward") else ("reverse"))
          ((if (idx + i) % 2 = 0 then members else members.reverse).get?
            (picksFor (events.get ⟨i, hi⟩).event.id).length)
          (picksFor (events.get ⟨i, hi⟩).event.id) := by
  intro events
  induction events with
  | nil => intro idx i hi; exact absurd hi (Nat.not_lt_zero i)
  | cons ev rest ih =>
    intro idx i hi hbefore hk
    cases i with
    | zero =>
      simp only [List.get] at hk ⊢
      simp only [currentStateLoop, if_pos hk, Nat.add_zero]
    | succ j =>
      have h0 : members.length ≤ (picksFor ev.event.id).length := by
        simpa using hbefore 0 (Nat.succ_pos j)
      have hnot : ¬ (picksFor ev.event.id).length < members.length :=
        Nat.not_lt.mpr h0
      have hj' : j < rest.length := Nat.lt_of_succ_lt_succ hi
      have hrec := ih (idx + 1) j hj'
        (fun j2 hj2 => by
          simpa using hbefore (j2 + 1) (Nat.succ_lt_succ hj2))
        (by simpa using hk)
      simp only [currentStateLoop, if_neg hnot]
      simpa [Nat.add_assoc, Nat.add_comm 1 j] using hrec

/-- Any event the resolver loop reports in progress is one of the walked
events. -/
theorem currentStateLoop_event_mem (members : List Member)
    (picksFor : Nat → List Pick) :
    ∀ (events : List LeagueEvent) (idx : Nat) (ev : LeagueEvent) (i : Nat)
      (dir : String) (otc : Option Member) (ps : List Pick),
      currentStateLoop members picksFor idx events =
        DraftState.inProgress ev i dir otc ps → ev ∈ events := by
  intro events
  induction events with
  | nil => intro idx ev i dir otc ps h; simp [currentStateLoop] at h
  | cons e rest ih =>
    intro idx ev i dir otc ps h
    by_cases hc : (picksFor e.event.id).length < members.length
    · simp only [currentStateLoop, if_pos hc, DraftState.inProgress.injEq] at h
      obtain ⟨rfl, -, -, -, -⟩ := h
      exact List.mem_cons_self e rest
    · simp only [currentStateLoop, if_neg hc] at h
      exact List.mem_cons_of_mem e (ih (idx + 1) ev i dir otc ps h)

/-- The on-the-clock slot the loop reports is never a missing (out of
range) index. -/
theorem currentStateLoop_otc_ne_none (members : List Member)
    (picksFor : Nat → List Pick) :
    ∀ (events : List LeagueEvent) (idx : Nat) (ev : LeagueEvent) (i : Nat)
      (dir : String) (ps : List Pick),
      currentStateLoop members picksFor idx events ≠
        DraftState.inProgress ev i dir none ps := by
  intro events
  induction events with
  | nil => intro idx ev i dir ps; simp [currentStateLoop]
  | cons e rest ih =>
    intro idx ev i dir ps
    by_cases hc : (picksFor e.event.id).length < members.length
    · simp only [currentStateLoop, if_pos hc]
      intro h
      simp only [DraftState.inProgress.injEq] at h
      obtain ⟨-, -, -, hnone, -⟩ := h
      rw [List.get?_eq_none] at hnone
      rw [length_adjustedOrder] at hnone
      omega
    · simp only [currentStateLoop, if_neg hc]
      exact ih (idx + 1) ev i dir ps

/-- Direction adjustment preserves distinctness of member ids. -/
theorem adjustedOrder_id_nodup (members : List Member) (i : Nat)
    (hm : (members.map Member.id).Nodup) :
    ((if i % 2 = 0 then members else members.reverse).map Member.id).Nodup := by
  split
  · exact hm
  · rw [List.map_reverse, List.nodup_reverse]
    exact hm

/-- In a roster with distinct ids, two different positions never hold the
same member. -/
theorem get?_ne_of_id_nodup (l : List Member)
    (hm : (l.map Member.id).Nodup) (k k' : Nat) (hne : k ≠ k') (u : Member)
    (h1 : l.get? k = some u) (h2 : l.get? k' = some u) : False := by
  have hk : k < l.length := List.get?_eq_some.mp h1 |>.choose
  have h1' : (l.map Member.id).get? k = some u.id := by
    rw [List.get?_map, h1]; rfl
  have h2' : (l.map Member.id).get? k' = some u.id := by
    rw [List.get?_map, h2]; rfl
  have hk' : k < (l.map Member.id).length := by simpa using hk
  exact hne (List.get?_inj hk' hm (h1'.trans h2'.symm))

/-- Core advancement lemma: once one more pick is committed for the event
the loop reported in progress, walking the same events again never
reports the same (event, on-the-clock user) pair. -/
theorem currentStateLoop_advances (members : List Member)
    (picksFor picksFor' : Nat → List Pick)
    (hm : (members.map Member.id).Nodup) :
    ∀ (events : List LeagueEvent) (idx : Nat),
      (events.map (fun le => le.event.id)).Nodup →
      ∀ (ev : LeagueEvent) (i : Nat) (dir : String) (u : Member)
        (ps : List Pick),
      currentStateLoop members picksFor idx events =
        DraftState.inProgress ev i dir (some u) ps →
      (picksFor' ev.event.id).length = (picksFor ev.event.id).length + 1 →
      (∀ eid, eid ≠ ev.event.id →
        (picksFor' eid).length = (picksFor eid).length) →
      ∀ (i' : Nat) (dir' : String) (ps' : List Pick),
        currentStateLoop members picksFor' idx events ≠
          DraftState.inProgress ev i' dir' (some u) ps' := by
  intro events
  induction events with
  | nil => intro idx he ev i dir u ps h; simp [currentStateLoop] at h
  | cons e rest ih =>
    intro idx he ev i dir u ps h hgrow hsame i' dir' ps'
    rw [List.map_cons, List.nodup_cons] at he
    obtain ⟨hhead, htail⟩ := he
    by_cases hc : (picksFor e.event.id).length < members.length
    · simp only [currentStateLoop, if_pos hc, DraftState.inProgress.injEq] at h
      obtain ⟨rfl, -, -, hotc, -⟩ := h
      by_cases hc2 : (picksFor e.event.id).length + 1 < members.length
      · simp only [currentStateLoop, hgrow, if_pos hc2]
        intro hcontra
        simp only [DraftState.inProgress.injEq] at hcontra
        obtain ⟨-, -, -, hotc', -⟩ := hcontra
        exact get?_ne_of_id_nodup _
          (adjustedOrder_id_nodup members idx hm)
          (picksFor e.event.id).length ((picksFor e.event.id).length + 1)
          (by omega) u hotc
          (by
            have : idx % 2 = idx % 2 := rfl
            by_cases hpar : idx % 2 = 0 <;>
              simp only [if_pos, if_neg, hpar] at hotc' ⊢ <;> simpa using hotc')
      · simp only [currentStateLoop, hgrow, if_neg hc2]
        intro hcontra
        have hmem := currentStateLoop_event_mem members picksFor'
          rest (idx + 1) e i' dir' (some u) ps' hcontra
        exact hhead (List.mem_map_of_mem (fun le => le.event.id) hmem)
    · have hne : e.event.id ≠ ev.event.id := by
        intro heq
        have hmem := currentStateLoop_event_mem members picksFor
          rest (idx + 1) ev i dir (some u) ps
          (by simpa [currentStateLoop, if_neg hc] using h)
        exact hhead (heq ▸ List.mem_map_of_mem (fun le => le.event.id) hmem)
      have hc' : ¬ (picksFor' e.event.id).length < members.length := by
        rw [hsame e.event.id hne]; exact hc
      simp only [currentStateLoop, if_neg hc] at h
      simp only [currentStateLoop, if_neg hc']
      exact ih (idx + 1) htail ev i dir u ps h hgrow hsame i' dir' ps'

/-- Every rejected `make_pick` request leaves the database untouched. -/
theorem makePick_error_db (db : DB) (userId : Nat) (body : MakePickIn)
    (e : PickError) :
    (makePick db userId body).res = Except.error e →
    (makePick db userId body).db = db := by
  unfold makePick
  repeat' split
  all_goals intro h
  all_goals first | rfl | simp at h

/-- Every accepted `make_pick` request appends exactly the returned pick
row and changes no other table. -/
theorem makePick_ok_db (db : DB) (userId : Nat) (body : MakePickIn)
    (p : Pick) :
    (makePick db userId body).res = Except.ok p →
    (makePick db userId body).db =
      DB.mk db.leagueStatus db.draftRounds db.catalogEvents db.members
        db.leagueEvents db.eventEntries (db.picks ++ [p]) := by
  unfold makePick
  repeat' split
  all_goals intro h
  all_goals simp_all

/-- A successful `start_draft` produces exactly the generated plan, the
positioned roster, the appended auto picks and the drafting status. -/
theorem startDraft_ok (db : DB) (sd : List Event) (sm : List Member)
    (ap : List Pick) :
    (startDraft db sd sm ap).res = Except.ok () →
    (startDraft db sd sm ap).db =
      DB.mk ("drafting") db.draftRounds db.catalogEvents
        (assignPositions 1 sm)
        (db.catalogEvents.map (fun e =>
          LeagueEvent.mk e
            (if e.id ∈ (sd.take db.draftRounds).map Event.id
              then ("draft") else ("auto"))
            e.sort_order))
        db.eventEntries (db.picks ++ ap) := by
  unfold startDraft
  repeat' split
  all_goals intro h
  all_goals first | rfl | simp at h

/-- The position-assignment step hands out the consecutive positions
`p, p+1, ...` along the shuffled roster. -/
theorem assignPositions_positions :
    ∀ (ms : List Member) (p : Nat),
      (assignPositions p ms).map Member.draft_position =
        (List.range ms.length).map (fun i => some (i + p)) := by
  intro ms
  induction ms with
  | nil => intro p; simp [assignPositions]
  | cons m rest ih =>
    intro p
    simp only [assignPositions, List.map_cons, List.length_cons,
      List.range_succ_eq_map, List.map_map, ih (p + 1)]
    congr 1
    · simp
    · exact List.map_congr_left (fun i _ => by
        simp only [Function.comp_apply, Option.some.injEq]
        omega)

/-! ### Claim theorems -/

/-- C9: the resolver's on-the-clock lookup `order[len(picks)]` is always in
range: for every members list, every pick table (including per-event pick
counts exceeding the member count) and every event walk, the loop never
reports an in-progress state with a missing on-the-clock slot, so state
resolution is total. -/
theorem C9_on_the_clock_in_bounds (members : List Member)
    (picksFor : Nat → List Pick) (events : List LeagueEvent) (idx : Nat)
    (ev : LeagueEvent) (i : Nat) (dir : String) (ps : List Pick) :
    currentStateLoop members picksFor idx events ≠
      DraftState.inProgress ev i dir none ps :=
  currentStateLoop_otc_ne_none members picksFor events idx ev i dir ps

/-- C1: for every roster of at least one member in draft order, every
planned draft-event sequence and every pick table, the resolver walk
reports `InProgress` at the first event index whose pick count is below
the member count, with direction forward exactly on even indices and the
member at the pick-count position of the direction-adjusted order on the
clock; and it reports `Complete` exactly when every considered event has
pick count at least the member count. -/
theorem C1_resolver_state (members : List Member) (picksFor : Nat → List Pick)
    (events : List LeagueEvent) (hN : 1 ≤ members.length) :
    (∀ (i : Nat) (hi : i < events.length),
      (∀ j (hj : j < i),
        members.length ≤
          (picksFor (events.get ⟨j, Nat.lt_trans hj hi⟩).event.id).length) →
      ∀ (hk : (picksFor (events.get ⟨i, hi⟩).event.id).length < members.length),
      currentStateLoop members picksFor 0 events =
        DraftState.inProgress (events.get ⟨i, hi⟩) i
          (if i % 2 = 0 then ("forward") else ("reverse"))
          (some ((if i % 2 = 0 then members else members.reverse).get
            ⟨(picksFor (events.get ⟨i, hi⟩).event.id).length, by
              rw [length_adjustedOrder]; exact hk⟩))
          (picksFor (events.get ⟨i, hi⟩).event.id)) ∧
    (currentStateLoop members picksFor 0 events = DraftState.complete ↔
      ∀ ev ∈ events, members.length ≤ (picksFor ev.event.id).length) := by
  constructor
  · intro i hi hbefore hk
    have h := currentStateLoop_first members picksFor events 0 i hi hbefore hk
    rw [h]
    simp only [Nat.zero_add]
    congr 1
    exact List.get?_eq_get (by rw [length_adjustedOrder]; exact hk)
  · exact currentStateLoop_complete_iff members picksFor events 0

/-- Witness for C1: two members, first event fully picked, so the walk is
in progress at index 1 with reversed order and Bob on the clock. -/
theorem C1_witness :
    currentStateLoop sampleMembers samplePicksFullA 0 sampleEvents =
      DraftState.inProgress leB 1 "reverse" (some mBob) [] := by
  have h := (C1_resolver_state sampleMembers samplePicksFullA sampleEvents
    (by decide)).1 1 (by decide)
    (fun j hj => by
      have hj0 : j = 0 := by omega
      subst hj0
      exact (by decide :
        sampleMembers.length ≤ (samplePicksFullA leA.event.id).length))
    (by decide)
  rw [h]
  decide

/-- C8: if the resolver is in progress at the pair (event, user) and one
additional pick is committed for that event while every other event's pick
count is unchanged, re-resolving never reports the same
(event, on-the-clock user) pair again. -/
theorem C8_monotonic_advancement (members : List Member)
    (picksFor picksFor' : Nat → List Pick) (events : List LeagueEvent)
    (hm : (members.map Member.id).Nodup)
    (he : (events.map (fun le => le.event.id)).Nodup)
    (ev : LeagueEvent) (i : Nat) (dir : String) (u : Member) (ps : List Pick)
    (h : currentStateLoop members picksFor 0 events =
      DraftState.inProgress ev i dir (some u) ps)
    (hgrow : (picksFor' ev.event.id).length = (picksFor ev.event.id).length + 1)
    (hsame : ∀ eid, eid ≠ ev.event.id →
      (picksFor' eid).length = (picksFor eid).length)
    (i' : Nat) (dir' : String) (ps' : List Pick) :
    currentStateLoop members picksFor' 0 events ≠
      DraftState.inProgress ev i' dir' (some u) ps' :=
  currentStateLoop_advances members picksFor picksFor' hm events 0 he
    ev i dir u ps h hgrow hsame i' dir' ps'

/-- Witness for C8: after Alice's committed pick for the first event, Alice
is no longer reported on the clock for that event. -/
theorem C8_witness :
    currentStateLoop sampleMembers samplePicksOneA 0 sampleEvents ≠
      DraftState.inProgress leA 0 "forward" (some mAlice) [pkA1] :=
  C8_monotonic_advancement sampleMembers samplePicksNone samplePicksOneA
    sampleEvents (by decide) (by decide) leA 0 "forward" mAlice []
    (by decide) (by decide)
    (fun eid hne => by
      simp only [leA, evA] at hne
      simp [samplePicksOneA, samplePicksNone, hne])
    0 "forward" [pkA1]

/-- C2 (amended): the sequence the resolver walks contains exactly the
planned events that are in draft mode AND whose current entry count is at
least the league's member count; auto-mode events never appear, but a
draft-mode event is also excluded when its entry count is below the
member count. -/
theorem C2_walked_events (db : DB) (n : Nat) (evs : List LeagueEvent)
    (h : getEventsInOrder db n = Except.ok evs) (le : LeagueEvent) :
    le ∈ evs ↔
      le ∈ db.leagueEvents ∧ le.mode = "draft" ∧
        n ≤ entryCount db le.event.id := by
  unfold getEventsInOrder at h
  split at h
  · exact absurd h (by simp)
  · rw [Except.ok.injEq] at h
    subst h
    rw [mem_insertionSort, List.mem_filter]
    simp [and_assoc]

/-- Witness for C2 at the fully stocked sample league. -/
theorem C2_witness :
    leA ∈ [leA, leB] ↔
      leA ∈ dbBasic.leagueEvents ∧ leA.mode = "draft" ∧
        2 ≤ entryCount dbBasic leA.event.id :=
  C2_walked_events dbBasic 2 [leA, leB] (by decide) leA

/-- C2 counterexample: a planned draft-mode event with entry count 0 in a
one-member league is excluded from the resolver walk, so an event can be
excluded for a reason other than not being in draft mode. -/
theorem C2_counterexample :
    dbNoEntries.leagueEvents = [leA] ∧ leA.mode = "draft" ∧
      entryCount dbNoEntries leA.event.id = 0 ∧
      getEventsInOrder dbNoEntries 1 = Except.ok [] := by
  decide

/-- If every member of a non-empty roster lacks a draft position, the
roster fetch fails with the draft-not-started error. -/
theorem getMembersInDraftOrder_all_null (db : DB) (hne : db.members ≠ [])
    (hnull : ∀ m ∈ db.members, m.draft_position = none) :
    getMembersInDraftOrder db = Except.error DraftError.draftNotSet := by
  unfold getMembersInDraftOrder
  cases hsort : insertionSort memberLE db.members with
  | nil =>
    exfalso
    apply hne
    have hlen := (insertionSort_perm memberLE db.members).length_eq
    rw [hsort] at hlen
    exact List.eq_nil_of_length_eq_zero hlen.symm
  | cons m rest =>
    have hm : m ∈ db.members := by
      rw [← mem_insertionSort memberLE db.members m, hsort]
      exact List.mem_cons_self m rest
    show (match m.draft_position with
      | none => Except.error DraftError.draftNotSet
      | some _ => Except.ok (m :: rest)) =
        Except.error DraftError.draftNotSet
    rw [hnull m hm]

/-- C4 (amended): state resolution fails with the draft-not-started error
whenever every member's draft position is unassigned (and the league is
non-empty); a roster where only some positions are missing is NOT caught
by this check, because the null-last ordering puts an assigned position
first. -/
theorem C4_unassigned_rejected (db : DB) (hne : db.members ≠ [])
    (hnull : ∀ m ∈ db.members, m.draft_position = none) :
    currentState db = Except.error DraftError.draftNotSet := by
  unfold currentState
  rw [getMembersInDraftOrder_all_null db hne hnull]

/-- Witness for C4 at a league whose two members both lack positions. -/
theorem C4_witness :
    currentState dbAllNull = Except.error DraftError.draftNotSet :=
  C4_unassigned_rejected dbAllNull (by decide) (by decide)

/-- C4 counterexample: a roster where SOME but not all positions are
unassigned is resolved rather than rejected — with Alice assigned and
Carol unassigned, resolution reports Alice on the clock instead of
failing with the draft-not-started error. -/
theorem C4_counterexample :
    (mNoPos ∈ dbPartialNull.members ∧ mNoPos.draft_position = none) ∧
      currentState dbPartialNull ≠ Except.error DraftError.draftNotSet ∧
      currentState dbPartialNull =
        Except.ok (DraftState.inProgress leA 0 "forward" (some mAlice) []) := by
  decide

/-- C3: every `make_pick` request rejected as draft-not-active,
not-a-member, draft-complete or not-your-turn leaves the database — in
particular the pick set — unchanged: these validations all run before the
insert. -/
theorem C3_rejections_change_nothing (db : DB) (userId : Nat)
    (body : MakePickIn)
    (h : (makePick db userId body).res = Except.error PickError.draftNotActive ∨
      (makePick db userId body).res = Except.error PickError.notAMember ∨
      (makePick db userId body).res = Except.error PickError.draftComplete ∨
      (makePick db userId body).res = Except.error PickError.notYourTurn) :
    (makePick db userId body).db = db := by
  rcases h with h | h | h | h <;>
    exact makePick_error_db db userId body _ h

/-- Witness for C3: a non-member's pick attempt fails with the
not-a-member error and changes nothing. -/
theorem C3_witness :
    (makePick dbBasic 99 bodyUSA).res = Except.error PickError.notAMember ∧
      (makePick dbBasic 99 bodyUSA).db = dbBasic :=
  ⟨by decide, C3_rejections_change_nothing dbBasic 99 bodyUSA
    (Or.inr (Or.inl (by decide)))⟩

/-- C10: a successful `make_pick` appends exactly one row to the pick
table and changes nothing else — league status, members (draft positions
included), the event plan and the entry catalog are untouched. -/
theorem C10_success_frame (db : DB) (userId : Nat) (body : MakePickIn)
    (p : Pick) (h : (makePick db userId body).res = Except.ok p) :
    (makePick db userId body).db =
      DB.mk db.leagueStatus db.draftRounds db.catalogEvents db.members
        db.leagueEvents db.eventEntries (db.picks ++ [p]) :=
  makePick_ok_db db userId body p h

/-- Witness for C10: Alice's valid first pick appends one pick row and
preserves every other table. -/
theorem C10_witness :
    (makePick dbBasic 1 bodyUSA).db =
      DB.mk dbBasic.leagueStatus dbBasic.draftRounds dbBasic.catalogEvents
        dbBasic.members dbBasic.leagueEvents dbBasic.eventEntries
        (dbBasic.picks ++ [Pick.mk 10 1 "USA" "United States" 1]) :=
  C10_success_frame dbBasic 1 bodyUSA
    (Pick.mk 10 1 "USA" "United States" 1) (by decide)

/-- C5 (amended): a pick that passes the turn check is rejected with the
invalid-entry error exactly when `entry_key` matches no `event_entries`
row of the resolved current event, and such a rejection creates no pick
row; the entry's team/individual flag is NOT compared against the event's
`is_team_event` flag (see the counterexample). -/
theorem C5_entry_validation (db : DB) (userId : Nat) (body : MakePickIn)
    (ev : LeagueEvent) (i : Nat) (dir : String) (m : Member) (ps : List Pick)
    (hkey : ¬ stripString body.entry_key = "")
    (hname : ¬ stripString body.entry_name = "")
    (hmem : db.members.any (fun x => x.id == userId) = true)
    (hst : db.leagueStatus = "drafting")
    (hstate : currentState db =
      Except.ok (DraftState.inProgress ev i dir (some m) ps))
    (hturn : m.id = userId) :
    ((makePick db userId body).res = Except.error PickError.invalidEntry ↔
      ¬ ∃ en ∈ db.eventEntries,
        en.event_id = ev.event.id ∧
          en.entry_key = stripString body.entry_key) ∧
    ((makePick db userId body).res = Except.error PickError.invalidEntry →
      (makePick db userId body).db = db) := by
  refine ⟨?_, fun h => makePick_error_db db userId body _ h⟩
  unfold makePick
  rw [hstate, if_neg hkey, if_neg hname, hmem]
  rw [if_neg (fun hc => Bool.noConfusion hc)]
  rw [if_neg (fun hc => hc hst)]
  split
  case _ e heq => exact absurd heq (by simp)
  case _ heq => exact absurd heq (by simp)
  case _ ev2 i2 dir2 otc2 ps2 heq =>
    rw [Except.ok.injEq, DraftState.inProgress.injEq] at heq
    obtain ⟨rfl, rfl, rfl, rfl, rfl⟩ := heq
    split
    case _ heq2 => exact absurd heq2 (by simp)
    case _ m2 heq2 =>
      rw [Option.some.injEq] at heq2
      subst heq2
      rw [if_neg (fun hc => hc hturn)]
      split
      case _ hfind =>
        rw [List.find?_eq_none] at hfind
        constructor
        · rintro - ⟨en, hen, h1, h2⟩
          have hc := hfind en hen
          simp [h1, h2] at hc
        · intro _
          rfl
      case _ en hfind =>
        have hmemen := List.mem_of_find?_eq_some hfind
        have hp := List.find?_some hfind
        simp only [Bool.and_eq_true, beq_iff_eq] at hp
        constructor
        · intro hres
          exfalso
          revert hres
          split
          · intro hres; simp at hres
          · split
            · intro hres; simp at hres
            · intro hres; simp at hres
        · intro hno
          exact absurd ⟨en, hmemen, hp.1, hp.2⟩ hno

/-- Witness for C5: a pick whose key matches no catalog entry of the
current event is rejected with the invalid-entry error and changes
nothing. -/
theorem C5_witness :
    ((makePick dbBasic 1 bodyNope).res = Except.error PickError.invalidEntry ↔
      ¬ ∃ en ∈ dbBasic.eventEntries,
        en.event_id = leA.event.id ∧
          en.entry_key = stripString bodyNope.entry_key) ∧
    ((makePick dbBasic 1 bodyNope).res = Except.error PickError.invalidEntry →
      (makePick dbBasic 1 bodyNope).db = dbBasic) :=
  C5_entry_validation dbBasic 1 bodyNope leA 0 "forward" mAlice []
    (by decide) (by decide) (by decide) rfl (by decide) rfl

/-- C5 counterexample: a TEAM entry (`is_team = true`) filed under the
INDIVIDUAL current event (`is_team_event = false`) is accepted rather than
rejected with the invalid-entry error, and a pick row is created: the code
checks only that the (event, entry_key) row exists, never the
team/individual flag. -/
theorem C5_counterexample :
    currentState dbBasic =
      Except.ok (DraftState.inProgress leA 0 "forward" (some mAlice) []) ∧
    enA1 ∈ dbBasic.eventEntries ∧ enA1.event_id = leA.event.id ∧
    enA1.entry_key = stripString bodyUSA.entry_key ∧
    enA1.is_team = true ∧ leA.event.is_team_event = false ∧
    (makePick dbBasic 1 bodyUSA).res =
      Except.ok (Pick.mk 10 1 "USA" "United States" 1) ∧
    (makePick dbBasic 1 bodyUSA).db.picks =
      dbBasic.picks ++ [Pick.mk 10 1 "USA" "United States" 1] := by
  decide

/-- C6: when start-draft succeeds for a shuffled roster, the assigned
draft positions are exactly the multiset {1..N}, each once; a league with
zero members (that reaches the roster check) is rejected with the
no-members error and the database is unchanged. -/
theorem C6_position_permutation (db : DB) (shuffledDraftable : List Event)
    (shuffledMembers : List Member) (autoPicks : List Pick)
    (hperm : shuffledMembers.Perm db.members) :
    ((startDraft db shuffledDraftable shuffledMembers autoPicks).res =
        Except.ok () →
      ((startDraft db shuffledDraftable shuffledMembers
          autoPicks).db.members.map Member.draft_position).Perm
        ((List.range db.members.length).map (fun i => some (i + 1)))) ∧
    (db.leagueStatus = "lobby" → db.catalogEvents ≠ [] → db.members = [] →
      (startDraft db shuffledDraftable shuffledMembers autoPicks).res =
          Except.error StartError.noMembers ∧
        (startDraft db shuffledDraftable shuffledMembers autoPicks).db = db) := by
  constructor
  · intro hok
    rw [startDraft_ok db shuffledDraftable shuffledMembers autoPicks hok]
    show ((assignPositions 1 shuffledMembers).map Member.draft_position).Perm _
    rw [assignPositions_positions shuffledMembers 1, hperm.length_eq]
  · intro hlobby hseed hmembers
    unfold startDraft
    rw [if_neg (fun hc => hc hlobby),
      if_neg (fun hc => hseed (List.eq_nil_of_length_eq_zero hc)),
      if_pos (by rw [hmembers]; rfl)]
    exact ⟨rfl, rfl⟩

/-- Witness for C6 at the two-member lobby league started with the
identity shuffles. -/
theorem C6_witness :
    ((startDraft dbLobby (draftableEvents dbLobby) dbLobby.members []).res =
        Except.ok () →
      ((startDraft dbLobby (draftableEvents dbLobby) dbLobby.members
          []).db.members.map Member.draft_position).Perm
        ((List.range dbLobby.members.length).map (fun i => some (i + 1)))) ∧
    (dbLobby.leagueStatus = "lobby" → dbLobby.catalogEvents ≠ [] →
      dbLobby.members = [] →
      (startDraft dbLobby (draftableEvents dbLobby) dbLobby.members []).res =
          Except.error StartError.noMembers ∧
        (startDraft dbLobby (draftableEvents dbLobby) dbLobby.members []).db =
          dbLobby) :=
  C6_position_permutation dbLobby (draftableEvents dbLobby) dbLobby.members []
    (List.Perm.refl _)

/-- C7: plan generation marks as draft-mode only events whose entry count
strictly exceeds the member count, and when fewer than draft-rounds many
events are eligible it fails with the insufficient-capacity error without
creating any plan rows. -/
theorem C7_eligibility_and_capacity (db : DB) (shuffledDraftable : List Event)
    (shuffledMembers : List Member) (autoPicks : List Pick)
    (hperm : shuffledDraftable.Perm (draftableEvents db)) :
    (∀ le, (startDraft db shuffledDraftable shuffledMembers autoPicks).res =
        Except.ok () →
      le ∈ (startDraft db shuffledDraftable shuffledMembers
        autoPicks).db.leagueEvents →
      le.mode = "draft" →
      db.members.length < entryCount db le.event.id) ∧
    (db.leagueStatus = "lobby" → db.catalogEvents ≠ [] → db.members ≠ [] →
      1 ≤ db.draftRounds →
      (draftableEvents db).length < db.draftRounds →
      (startDraft db shuffledDraftable shuffledMembers autoPicks).res =
          Except.error StartError.insufficientCapacity ∧
        (startDraft db shuffledDraftable shuffledMembers autoPicks).db = db) := by
  constructor
  · intro le hok hmem hmode
    rw [startDraft_ok db shuffledDraftable shuffledMembers autoPicks hok] at hmem
    obtain ⟨e, hecat, rfl⟩ := List.mem_map.mp hmem
    by_cases hc : e.id ∈ (shuffledDraftable.take db.draftRounds).map Event.id
    · obtain ⟨e2, he2, heid⟩ := List.mem_map.mp hc
      have he2' : e2 ∈ draftableEvents db :=
        hperm.mem_iff.mp (List.mem_of_mem_take he2)
      have hlt := List.of_mem_filter he2'
      rw [decide_eq_true_eq] at hlt
      show db.members.length < entryCount db e.id
      rw [← heid]
      exact hlt
    · rw [show (LeagueEvent.mk e
          (if e.id ∈ (shuffledDraftable.take db.draftRounds).map Event.id
            then ("draft") else ("auto")) e.sort_order).mode =
          (if e.id ∈ (shuffledDraftable.take db.draftRounds).map Event.id
            then ("draft") else ("auto")) from rfl, if_neg hc] at hmode
      exact absurd hmode (by simp)
  · intro hlobby hseed hne hr hcap
    unfold startDraft
    rw [if_neg (fun hc => hc hlobby),
      if_neg (fun hc => hseed (List.eq_nil_of_length_eq_zero hc)),
      if_neg (fun hc => hne (List.eq_nil_of_length_eq_zero hc)),
      if_neg (by omega),
      if_pos hcap]
    exact ⟨rfl, rfl⟩

/-- Witness for C7 at a lobby league requesting five draft rounds with
only two eligible events. -/
theorem C7_witness :
    (∀ le, (startDraft dbLobbyShort (draftableEvents dbLobbyShort)
        dbLobbyShort.members []).res = Except.ok () →
      le ∈ (startDraft dbLobbyShort (draftableEvents dbLobbyShort)
        dbLobbyShort.members []).db.leagueEvents →
      le.mode = "draft" →
      dbLobbyShort.members.length < entryCount dbLobbyShort le.event.id) ∧
    (dbLobbyShort.leagueStatus = "lobby" → dbLobbyShort.catalogEvents ≠ [] →
      dbLobbyShort.members ≠ [] → 1 ≤ dbLobbyShort.draftRounds →
      (draftableEvents dbLobbyShort).length < dbLobbyShort.draftRounds →
      (startDraft dbLobbyShort (draftableEvents dbLobbyShort)
          dbLobbyShort.members []).res =
          Except.error StartError.insufficientCapacity ∧
        (startDraft dbLobbyShort (draftableEvents dbLobbyShort)
          dbLobbyShort.members []).db = dbLobbyShort) :=
  C7_eligibility_and_capacity dbLobbyShort (draftableEvents dbLobbyShort)
    dbLobbyShort.members [] (List.Perm.refl _)

end YLDraft
